import Mathlib

/-!
# Verification of the DR_ENV_Creator credential vault

Shallow embedding of the credential-vault core of `src/DR_ENV_Creator.py`:
the password gate (`setup_password`, `verify_password`), the SQLite-backed
credential store (`init_db` seeding, `update_key`, `list_keys`, `export_env`)
and the expiry-status computation inside `list_keys`.

Modelling choices, each justified against the source:

* The `api_keys` table is modelled as a `List ApiKeyRecord` in rowid order.
  `SELECT` without `ORDER BY` returns rows in rowid order; both
  `INSERT OR IGNORE` (seeding) and `INSERT OR REPLACE` (upsert) insert the
  new row with a fresh autoincrement id, i.e. at the end of the list, and
  `INSERT OR REPLACE` first deletes every row conflicting on the UNIQUE
  `service` column.  The `id` and `updated_at` columns are never read by the
  program, so they are not part of the record.
* Time is an integer count of unix seconds.  Python's
  `(datetime.now() - datetime.fromtimestamp(ts)).days` is the floor of the
  elapsed seconds divided by 86400 (`timedelta.days` floors), which is
  `Int.fdiv` here; the sub-second part of `datetime.now()` cannot change the
  floor because the stored timestamp is a whole second.
* `hashlib.sha256(...).hexdigest()` is modelled as an abstract
  `hash : String → String` parameter.  The password-artifact file holds the
  hex digest exactly as written, so the `.strip()` on read is the identity.
* Python truthiness: `if timestamp:` is false for `None` and for `0`;
  `if model:` is false for `None` and for `""`; `if key:` is false for `""`.
-/

/-- One row of the `api_keys` table: `service` (UNIQUE), `key`, the integer
`timestamp` column (nullable) and the `model` column (nullable). -/
structure ApiKeyRecord where
  service : String
  key : String
  timestamp : Option Int
  model : Option String
deriving Repr, DecidableEq

/-- The whole table, in rowid order. -/
abbrev Store := List ApiKeyRecord

/-- `SELECT * FROM api_keys WHERE service = ?` (first row in rowid order;
the UNIQUE constraint makes at most one exist). -/
def findService (service : String) (store : Store) : Option ApiKeyRecord :=
  store.find? (fun r => r.service == service)

/-- `timestamp` truthiness in Python: `None` and `0` are falsy. -/
def timestampTruthy : Option Int → Bool
  | none => false
  | some t => t != 0

/-- `(datetime.now() - datetime.fromtimestamp(t)).days`: whole days elapsed,
floored (`timedelta.days` rounds toward negative infinity). -/
def daysSinceUpdate (now t : Int) : Int :=
  (now - t).fdiv 86400

/-- The expiry-status branch taken by `list_keys` for one row (the string
built into `status_info` is recovered by `renderStatus`). -/
inductive ExpiryStatus where
  | noStatus
  | expired
  | expiresIn (days : Int)
  | validFor (days : Int)
  | unknownStatus
  | tokenSetNoInfo
deriving Repr, DecidableEq

/-- The `status_info` computation of `list_keys` (source lines 123-141):
only the service `"ollama"` gets a status; a truthy (present and nonzero)
`timestamp` is compared against the 90-day window, otherwise a non-empty
`key` yields the "Token set (no expiration info)" annotation. -/
def expiryStatus (service key : String) (timestamp : Option Int) (now : Int) :
    ExpiryStatus :=
  if service = "ollama" ∧ timestampTruthy timestamp = true then
    let daysRemaining := 90 - daysSinceUpdate now (timestamp.getD 0)
    if daysRemaining ≤ 0 then .expired
    else if daysRemaining ≤ 5 then .expiresIn daysRemaining
    else if daysRemaining ≤ 90 then .validFor daysRemaining
    else .unknownStatus
  else if service = "ollama" ∧ timestampTruthy timestamp = false ∧ key ≠ "" then
    .tokenSetNoInfo
  else
    .noStatus

/-- The literal `status_info` strings of the source (ANSI colour codes
included). -/
def renderStatus : ExpiryStatus → String
  | .noStatus => ""
  | .expired => " \x1b[31m[EXPIRED]\x1b[0m"
  | .expiresIn d => " \x1b[33m[Expires in " ++ toString d ++ " days]\x1b[0m"
  | .validFor d => " \x1b[38;5;208m[Valid for " ++ toString d ++ " days]\x1b[0m"
  | .unknownStatus => " \x1b[94m[Unknown status]\x1b[0m"
  | .tokenSetNoInfo => " \x1b[94m[Token set (no expiration info)]\x1b[0m"

/-- `f" ({model})" if model else ""` — `model` truthiness: `None` and `""`
give the empty suffix. -/
def modelSuffix : Option String → String
  | none => ""
  | some m => if m = "" then "" else " (" ++ m ++ ")"

/-- `f"{service.upper().replace('-', '_')}_API_KEY"`.  `.upper()` upper-cases
each character (the names here are ASCII) and leaves `'-'` unchanged, and
`.replace('-', '_')` has a single-character pattern, so the composition is
this single character-wise map. -/
def envVarName (service : String) : String :=
  String.mk (service.data.map (fun c => if c = '-' then '_' else c.toUpper))
    ++ "_API_KEY"

/-- `list_keys()` (source lines 111-145): one `(service, key, env_key,
status_info + model_info)` tuple per row, in rowid order. -/
def list_keys (now : Int) (store : Store) :
    List (String × String × String × String) :=
  store.map (fun r =>
    (r.service, r.key, envVarName r.service,
      renderStatus (expiryStatus r.service r.key r.timestamp now)
        ++ modelSuffix r.model))

/-- `update_key(service, key, timestamp=None, model=None)` (source lines
147-172).  A missing `timestamp` defaults to the current unix time `now`.
`INSERT OR REPLACE` deletes every row conflicting on the UNIQUE `service`
and appends the fresh row; when `model is None` the statement omits the
`model` column, so the fresh row stores NULL there. -/
def update_key (service key : String) (timestamp : Option Int)
    (model : Option String) (now : Int) (store : Store) : Store :=
  let ts := timestamp.getD now
  let newRow : ApiKeyRecord :=
    match model with
    | some m => ⟨service, key, some ts, some m⟩
    | none => ⟨service, key, some ts, none⟩
  store.filter (fun r => r.service != service) ++ [newRow]

/-- One `INSERT OR IGNORE INTO api_keys (service, key) VALUES (?, '')` of
the default-seeding loop of `init_db` (source lines 105-107): the row is
appended only when no row for that service exists, and stores empty `key`,
NULL `timestamp`, NULL `model`. -/
def seedStep (st : Store) (service : String) : Store :=
  if st.any (fun r => r.service == service) then st
  else st ++ [⟨service, "", none, none⟩]

/-- The seeding loop: fold `seedStep` over the default service list. -/
def init_db_seed (defaults : List String) (store : Store) : Store :=
  defaults.foldl seedStep store

/-- `export_env()` (source lines 174-186): writes, into the env file opened
with mode `"w"` (truncating whatever `oldEnvFile` held), one
`ENV_VAR=value` line per listed key with truthy (non-empty) `key`, in list
order; the reported count is `len([k for _, k, _, _ in keys if k])`.
Returns the final file contents and the reported count. -/
def export_env (_oldEnvFile : String) (now : Int) (store : Store) :
    String × Nat :=
  let keys := list_keys now store
  let contents := keys.foldl (fun acc e =>
    if e.2.1 != "" then acc ++ (envVarName e.1 ++ "=" ++ e.2.1 ++ "\n")
    else acc) ""
  let count := ((keys.map (fun e => e.2.1)).filter (fun k => k != "")).length
  (contents, count)

/-- Result of the password gate's verification. -/
inductive VerifyResult where
  | granted
  | noPasswordSet
  | incorrectPassword
deriving Repr, DecidableEq

/-- `setup_password()` (source lines 42-54): the artifact is the contents of
`master.hash`; if it exists nothing happens, otherwise the digest of the
prompted password is persisted.  `hash` stands for
`hashlib.sha256(pw.encode()).hexdigest()`. -/
def setup_password (hash : String → String) (pw : String)
    (artifact : Option String) : Option String :=
  match artifact with
  | some h => some h
  | none => some (hash pw)

/-- `verify_password()` (source lines 56-71): exits with "No password set"
when no artifact file exists; otherwise the digest of the entered password
is compared with the stored digest (the `.strip()` on read is the identity
on a hex digest) and a mismatch exits with "Incorrect password". -/
def verify_password (hash : String → String) (artifact : Option String)
    (input : String) : VerifyResult :=
  match artifact with
  | none => .noPasswordSet
  | some stored =>
    if hash input ≠ stored then .incorrectPassword else .granted

/-- Python `str.strip()`: drop leading and trailing whitespace,
character-wise. -/
def pyStrip (s : String) : String :=
  String.mk
    (((s.data.dropWhile Char.isWhitespace).reverse.dropWhile
      Char.isWhitespace).reverse)

/-- Python `str.lower()`: lower-case each character (ASCII here). -/
def pyLower (s : String) : String :=
  String.mk (s.data.map Char.toLower)

/-- The add-key flow of menu option 4 (source lines 273-281): the service
name input is stripped and lowercased; an empty result aborts without any
write, otherwise `update_key` is called with the stripped key and with
`model` only when the stripped model input is non-empty. -/
def addKeyFlow (serviceInput apiKeyInput modelInput : String) (now : Int)
    (store : Store) : Store :=
  let service_name := pyLower (pyStrip serviceInput)
  if service_name = "" then store
  else
    let api_key := pyStrip apiKeyInput
    let model_name := pyStrip modelInput
    update_key service_name api_key none
      (if model_name = "" then none else some model_name) now store

/-- A store-mutating operation of the vault: the seeding step of
`init_db` or an `update_key` call. -/
inductive VaultOp where
  | initOp (defaults : List String)
  | update (service key : String) (timestamp : Option Int)
      (model : Option String) (now : Int)

/-- Apply one operation to the store. -/
def applyOp (op : VaultOp) (store : Store) : Store :=
  match op with
  | .initOp defaults => init_db_seed defaults store
  | .update service key timestamp model now =>
      update_key service key timestamp model now store

/-- Run a sequence of operations. -/
def runOps (ops : List VaultOp) (store : Store) : Store :=
  ops.foldl (fun st op => applyOp op st) store

/-- At most one row per service name (the UNIQUE constraint on `service`). -/
def servicesNodup (store : Store) : Prop :=
  (store.map (fun r => r.service)).Nodup

instance (store : Store) : Decidable (servicesNodup store) :=
  List.nodupDecidable _

/-- Concatenation of a list of strings, used to state what the export loop
writes. -/
def concatAll : List String → String
  | [] => ""
  | line :: rest => line ++ concatAll rest

/-!
## Helper lemmas
-/

theorem findService_filter_ne (s : String) (store : Store) :
    (store.filter (fun r => r.service != s)).find? (fun r => r.service == s)
      = none := by
  rw [List.find?_eq_none]
  intro r hr
  have h := (List.mem_filter.mp hr).2
  simp only [bne_iff_ne, ne_eq] at h
  simp [h]

theorem find?_append_right_of_none {α : Type} (p : α → Bool)
    (l1 l2 : List α) (h : l1.find? p = none) :
    (l1 ++ l2).find? p = l2.find? p := by
  rw [List.find?_append, h, Option.none_or]

theorem find?_append_left_of_isSome {α : Type} (p : α → Bool)
    (l1 l2 : List α) (h : (l1.find? p).isSome) :
    (l1 ++ l2).find? p = l1.find? p := by
  obtain ⟨a, ha⟩ := Option.isSome_iff_exists.mp h
  rw [List.find?_append, ha, Option.or_some]

theorem expiryStatus_ollama_of_ne_zero (now t : Int) (key : String)
    (ht : t ≠ 0) :
    expiryStatus "ollama" key (some t) now =
      (if 90 - daysSinceUpdate now t ≤ 0 then .expired
       else if 90 - daysSinceUpdate now t ≤ 5 then
         .expiresIn (90 - daysSinceUpdate now t)
       else if 90 - daysSinceUpdate now t ≤ 90 then
         .validFor (90 - daysSinceUpdate now t)
       else .unknownStatus) := by
  have hts : timestampTruthy (some t) = true := by
    simp [timestampTruthy, ht]
  simp [expiryStatus, hts]

/-!
## Claims
-/

/-- Claim C1: for the `"ollama"` service with a present (truthy) timestamp,
`list_keys` derives status "expired" exactly when the remaining days
(90 minus whole days since the update) are ≤ 0, "expiring soon"
(`expiresIn`) exactly when they are in (0, 5], and "valid" (`validFor`)
exactly when they are in (5, 90]; timestamps of 90, 86 and 1 whole days ago
give respectively "expired", "expiring soon" (4 days) and "valid"
(89 days). -/
theorem C1_expiry_boundaries (now t : Int) (key : String) (ht : t ≠ 0) :
    ((expiryStatus "ollama" key (some t) now = .expired ↔
        90 - daysSinceUpdate now t ≤ 0) ∧
      (expiryStatus "ollama" key (some t) now
          = .expiresIn (90 - daysSinceUpdate now t) ↔
        0 < 90 - daysSinceUpdate now t ∧ 90 - daysSinceUpdate now t ≤ 5) ∧
      (expiryStatus "ollama" key (some t) now
          = .validFor (90 - daysSinceUpdate now t) ↔
        5 < 90 - daysSinceUpdate now t ∧ 90 - daysSinceUpdate now t ≤ 90)) ∧
    (now - 90 * 86400 ≠ 0 →
      expiryStatus "ollama" key (some (now - 90 * 86400)) now = .expired) ∧
    (now - 86 * 86400 ≠ 0 →
      expiryStatus "ollama" key (some (now - 86 * 86400)) now
        = .expiresIn 4) ∧
    (now - 86400 ≠ 0 →
      expiryStatus "ollama" key (some (now - 86400)) now = .validFor 89) := by
  have hdays : ∀ (k : Int), daysSinceUpdate now (now - k * 86400) = k := by
    intro k
    unfold daysSinceUpdate
    have h1 : now - (now - k * 86400) = k * 86400 := by ring
    rw [h1, Int.fdiv_eq_ediv _ (by norm_num),
      Int.mul_ediv_cancel _ (by norm_num)]
  refine ⟨⟨?_, ?_, ?_⟩, ?_, ?_, ?_⟩
  · rw [expiryStatus_ollama_of_ne_zero now t key ht]
    split_ifs <;> simp_all
  · rw [expiryStatus_ollama_of_ne_zero now t key ht]
    split_ifs <;> simp_all
  · rw [expiryStatus_ollama_of_ne_zero now t key ht]
    split_ifs <;> simp_all <;> omega
  · intro h90
    rw [expiryStatus_ollama_of_ne_zero now _ key h90, hdays 90]
    norm_num
  · intro h86
    rw [expiryStatus_ollama_of_ne_zero now _ key h86, hdays 86]
    norm_num
  · intro h1
    have h1d : daysSinceUpdate now (now - 86400) = 1 := by
      have := hdays 1
      norm_num at this
      exact this
    rw [expiryStatus_ollama_of_ne_zero now _ key h1, h1d]
    norm_num

/-- Witness for C1 at a concrete clock value. -/
theorem C1_expiry_boundaries_witness :
    expiryStatus "ollama" "tok" (some (1000000000 - 90 * 86400)) 1000000000
        = .expired ∧
    expiryStatus "ollama" "tok" (some (1000000000 - 86 * 86400)) 1000000000
        = .expiresIn 4 ∧
    expiryStatus "ollama" "tok" (some (1000000000 - 86400)) 1000000000
        = .validFor 89 := by
  have h := C1_expiry_boundaries 1000000000 1 "tok" (by decide)
  exact ⟨h.2.1 (by decide), h.2.2.1 (by decide), h.2.2.2 (by decide)⟩

/-- Claim C3: updating an existing record while omitting `model` leaves the
record for that service with `model` NULL — the prior model is not
preserved by the `INSERT OR REPLACE` upsert. -/
theorem C3_update_clears_model (store : Store) (s v0 : String)
    (ts0 : Option Int) (m v : String) (now : Int)
    (_mem : (⟨s, v0, ts0, some m⟩ : ApiKeyRecord) ∈ store) :
    findService s (update_key s v none none now store)
      = some ⟨s, v, some now, none⟩ := by
  have hu : update_key s v none none now store
      = store.filter (fun r => r.service != s) ++ [⟨s, v, some now, none⟩] :=
    rfl
  rw [hu]
  unfold findService
  rw [find?_append_right_of_none _ _ _ (findService_filter_ne s store)]
  simp

/-- Witness for C3 on a concrete one-record store. -/
theorem C3_update_clears_model_witness :
    findService "ollama"
        (update_key "ollama" "tok2" none none 77
          [⟨"ollama", "tok1", some 3, some "llama2"⟩])
      = some ⟨"ollama", "tok2", some 77, none⟩ := by
  exact C3_update_clears_model
    [⟨"ollama", "tok1", some 3, some "llama2"⟩]
    "ollama" "tok1" (some 3) "llama2" "tok2" 77 (by decide)

/-- Claim C4: `verify_password` exits with "No password set" when no
artifact exists; after `setup_password` stored the digest of `P`, an input
is granted exactly when (the hash being injective) it equals `P`, and any
other input exits with "Incorrect password". -/
theorem C4_verify_gate (hash : String → String)
    (hinj : Function.Injective hash) (P input : String) :
    verify_password hash none input = .noPasswordSet ∧
    (verify_password hash (setup_password hash P none) input = .granted ↔
      input = P) ∧
    (input ≠ P →
      verify_password hash (setup_password hash P none) input
        = .incorrectPassword) := by
  have hsetup : setup_password hash P none = some (hash P) := rfl
  refine ⟨rfl, ?_, ?_⟩
  · rw [hsetup]
    by_cases hc : hash input = hash P
    · simp [verify_password, hc, hinj hc]
    · simp [verify_password, hc]
      intro heq
      exact hc (by rw [heq])
  · intro hne
    rw [hsetup]
    have hc : hash input ≠ hash P := fun h => hne (hinj h)
    simp [verify_password, hc]

/-- Witness for C4 with the identity as the (injective) digest function. -/
theorem C4_verify_gate_witness :
    verify_password id none "x" = .noPasswordSet ∧
    verify_password id (setup_password id "secret" none) "secret"
      = .granted ∧
    verify_password id (setup_password id "secret" none) "wrong"
      = .incorrectPassword := by
  refine ⟨(C4_verify_gate id (fun _ _ h => h) "secret" "x").1, ?_, ?_⟩
  · exact (C4_verify_gate id (fun _ _ h => h) "secret" "secret").2.1.mpr rfl
  · exact (C4_verify_gate id (fun _ _ h => h) "secret" "wrong").2.2 (by decide)

/-- Counterexample to claim C5 as stated: `update_key` with the empty string
as service name is not rejected — it writes, creating a record whose
service name is empty, so the store state changes. -/
theorem C5_counterexample :
    update_key "" "v" none none 0 [] ≠ ([] : Store) ∧
    findService "" (update_key "" "v" none none 0 [])
      = some ⟨"", "v", some 0, none⟩ := by
  constructor
  · decide
  · decide

/-- Claim C5 as amended: the empty-service-name rejection lives in the
front-end add-key flow (menu option 4), which aborts before any write when
the stripped, lowercased input is empty; `update_key` itself performs no
validation and writes a record with empty service name. -/
theorem C5_amended_no_validation_in_update (serviceInput apiKeyInput
    modelInput : String) (now : Int) (store : Store)
    (hempty : pyLower (pyStrip serviceInput) = "") (v : String) :
    addKeyFlow serviceInput apiKeyInput modelInput now store = store ∧
    update_key "" v none none now store
      = store.filter (fun r => r.service != "")
          ++ [⟨"", v, some now, none⟩] := by
  refine ⟨?_, rfl⟩
  simp [addKeyFlow, hempty]

/-- Witness for the amended C5 on the empty service-name input. -/
theorem C5_amended_witness :
    addKeyFlow "" "k" "m" 0 [] = ([] : Store) ∧
    update_key "" "v" none none 0 []
      = ([] : Store).filter (fun r => r.service != "")
          ++ [⟨"", "v", some 0, none⟩] :=
  C5_amended_no_validation_in_update "" "k" "m" 0 [] (by decide) "v"

/-- Claim C7: every `list_keys` entry carries the env-var name derived from
its service by upper-casing, replacing '-' with '_' and appending
"_API_KEY"; service "together-ai" yields "TOGETHER_AI_API_KEY". -/
theorem C7_env_var_derivation :
    (∀ (now : Int) (store : Store),
        (list_keys now store).map (fun e => e.2.2.1)
          = store.map (fun r => envVarName r.service)) ∧
    envVarName "together-ai" = "TOGETHER_AI_API_KEY" := by
  refine ⟨fun now store => ?_, by decide⟩
  simp [list_keys]

/-- Claim C8: `setup_password` is a no-op when an artifact exists, so
running it twice yields the same artifact as running it once (the stored
digest is unchanged and no prompt happens on the second run). -/
theorem C8_setup_idempotent (hash : String → String) (pw1 pw2 : String)
    (st : Option String) (a : String) :
    setup_password hash pw2 (some a) = some a ∧
    setup_password hash pw2 (setup_password hash pw1 st)
      = setup_password hash pw1 st := by
  refine ⟨rfl, ?_⟩
  cases st <;> rfl

/-- Claim C10: a stored timestamp equal to 0 is falsy in Python, so an
`"ollama"` record with non-empty key and timestamp 0 gets the
"Token set (no expiration info)" annotation instead of "expired", even
when `now` places 0 more than 90 days in the past. -/
theorem C10_zero_timestamp_treated_absent (now : Int) (key : String)
    (hkey : key ≠ "") (hnow : 90 * 86400 ≤ now) :
    expiryStatus "ollama" key (some 0) now = .tokenSetNoInfo ∧
    expiryStatus "ollama" key (some 0) now ≠ .expired ∧
    90 - daysSinceUpdate now 0 ≤ 0 := by
  have h1 : expiryStatus "ollama" key (some 0) now = .tokenSetNoInfo := by
    simp [expiryStatus, timestampTruthy, hkey]
  refine ⟨h1, by simp [h1], ?_⟩
  have hd : daysSinceUpdate now 0 = now.fdiv 86400 := by
    simp [daysSinceUpdate]
  rw [hd, Int.fdiv_eq_ediv _ (by norm_num)]
  have h90 : (90 : Int) ≤ now / 86400 := by
    rw [Int.le_ediv_iff_mul_le (by norm_num)]
    linarith
  linarith

/-- Witness for C10 at a concrete clock value. -/
theorem C10_zero_timestamp_witness :
    expiryStatus "ollama" "tok" (some 0) 1000000000 = .tokenSetNoInfo ∧
    expiryStatus "ollama" "tok" (some 0) 1000000000 ≠ .expired ∧
    90 - daysSinceUpdate 1000000000 0 ≤ 0 :=
  C10_zero_timestamp_treated_absent 1000000000 "tok" (by decide) (by decide)

/-!
## Seeding lemmas (for C6 and C9)
-/

theorem hasService_seedStep_self (st : Store) (name : String) :
    ((seedStep st name).any (fun r => r.service == name)) = true := by
  unfold seedStep
  by_cases h : st.any (fun r => r.service == name) = true
  · rw [if_pos h]
    exact h
  · rw [if_neg h]
    simp [List.any_append]

theorem hasService_mono_seedStep (st : Store) (d x : String)
    (h : st.any (fun r => r.service == x) = true) :
    (seedStep st d).any (fun r => r.service == x) = true := by
  unfold seedStep
  split
  · exact h
  · simp [List.any_append, h]

theorem hasService_mono_seed (ds : List String) (st : Store) (x : String)
    (h : st.any (fun r => r.service == x) = true) :
    (init_db_seed ds st).any (fun r => r.service == x) = true := by
  induction ds generalizing st with
  | nil => exact h
  | cons d ds ih => exact ih (seedStep st d) (hasService_mono_seedStep st d x h)

theorem hasService_after_seed (ds : List String) (st : Store) (x : String) :
    x ∈ ds → (init_db_seed ds st).any (fun r => r.service == x) = true := by
  induction ds generalizing st with
  | nil => intro hx; cases hx
  | cons d ds ih =>
    intro hx
    rcases List.mem_cons.mp hx with rfl | h
    · exact hasService_mono_seed ds (seedStep st x) x
        (hasService_seedStep_self st x)
    · exact ih (seedStep st d) h

theorem seed_noop_of_all_present (ds : List String) (st : Store)
    (h : ∀ x ∈ ds, st.any (fun r => r.service == x) = true) :
    init_db_seed ds st = st := by
  induction ds generalizing st with
  | nil => rfl
  | cons d ds ih =>
    have hstep : seedStep st d = st := by
      unfold seedStep
      rw [if_pos (h d (List.mem_cons_self d ds))]
    show init_db_seed ds (seedStep st d) = st
    rw [hstep]
    exact ih st (fun x hx => h x (List.mem_cons_of_mem d hx))

theorem findService_seedStep (s d : String) (st : Store)
    (h : (findService s st).isSome) :
    findService s (seedStep st d) = findService s st := by
  unfold seedStep
  split
  · rfl
  · exact find?_append_left_of_isSome _ st _ h

theorem findService_init_db_seed (ds : List String) (st : Store)
    (s : String) (h : (findService s st).isSome) :
    findService s (init_db_seed ds st) = findService s st := by
  induction ds generalizing st with
  | nil => rfl
  | cons d ds ih =>
    have hstep := findService_seedStep s d st h
    show findService s (init_db_seed ds (seedStep st d)) = findService s st
    rw [ih (seedStep st d) (by rw [hstep]; exact h), hstep]

/-- Claim C6: the default-seeding step only inserts rows for services with
no record yet; every already-present record is left exactly as it was, for
every store and every default list, and the seeding step is idempotent, so
a second `init_db` run never resets a set value back to empty. -/
theorem C6_seed_never_overwrites (defaults : List String) (store : Store) :
    (∀ s, (findService s store).isSome →
        findService s (init_db_seed defaults store) = findService s store) ∧
    init_db_seed defaults (init_db_seed defaults store)
      = init_db_seed defaults store := by
  refine ⟨fun s h => findService_init_db_seed defaults store s h, ?_⟩
  exact seed_noop_of_all_present defaults _
    (fun x hx => hasService_after_seed defaults store x hx)

/-- Witness for C6 on a store whose "openai" value is already set. -/
theorem C6_seed_never_overwrites_witness :
    findService "openai"
        (init_db_seed ["openai", "anthropic"]
          [⟨"openai", "sk-live", none, none⟩])
      = findService "openai" [⟨"openai", "sk-live", none, none⟩] ∧
    init_db_seed ["openai", "anthropic"]
        (init_db_seed ["openai", "anthropic"]
          [⟨"openai", "sk-live", none, none⟩])
      = init_db_seed ["openai", "anthropic"]
          [⟨"openai", "sk-live", none, none⟩] := by
  have h := C6_seed_never_overwrites ["openai", "anthropic"]
    [⟨"openai", "sk-live", none, none⟩]
  exact ⟨h.1 "openai" (by decide), h.2⟩

/-!
## Uniqueness lemmas (for C9)
-/

theorem not_mem_services_of_any_eq_false (st : Store) (x : String)
    (h : st.any (fun r => r.service == x) = false) :
    x ∉ st.map (fun r => r.service) := by
  intro hx
  obtain ⟨r, hr, hserv⟩ := List.mem_map.mp hx
  have hany : st.any (fun r => r.service == x) = true :=
    List.any_eq_true.mpr ⟨r, hr, by simp [hserv]⟩
  simp [hany] at h

theorem servicesNodup_seedStep (st : Store) (d : String)
    (h : servicesNodup st) : servicesNodup (seedStep st d) := by
  unfold seedStep
  split
  · exact h
  · rename_i hany
    unfold servicesNodup at *
    rw [List.map_append, List.nodup_append]
    refine ⟨h, List.nodup_singleton _, ?_⟩
    intro a ha hb
    simp only [List.map_cons, List.map_nil, List.mem_singleton] at hb
    rw [hb] at ha
    exact not_mem_services_of_any_eq_false st d (by simpa using hany) ha

theorem servicesNodup_seed (ds : List String) (st : Store)
    (h : servicesNodup st) : servicesNodup (init_db_seed ds st) := by
  induction ds generalizing st with
  | nil => exact h
  | cons d ds ih => exact ih (seedStep st d) (servicesNodup_seedStep st d h)

theorem servicesNodup_update_key (s k : String) (ts : Option Int)
    (m : Option String) (now : Int) (store : Store)
    (h : servicesNodup store) :
    servicesNodup (update_key s k ts m now store) := by
  have hserv : ∀ (row : ApiKeyRecord), row.service = s →
      servicesNodup (store.filter (fun r => r.service != s) ++ [row]) := by
    intro row hrow
    unfold servicesNodup at *
    rw [List.map_append, List.nodup_append]
    refine ⟨List.Nodup.sublist ((List.filter_sublist store).map _) h,
      List.nodup_singleton _, ?_⟩
    intro a ha hb
    simp only [List.map_cons, List.map_nil, List.mem_singleton, hrow] at hb
    subst hb
    obtain ⟨r, hr, hsv⟩ := List.mem_map.mp ha
    have hne := (List.mem_filter.mp hr).2
    rw [hsv] at hne
    simp at hne
  cases m with
  | some mm => exact hserv ⟨s, k, some (ts.getD now), some mm⟩ rfl
  | none => exact hserv ⟨s, k, some (ts.getD now), none⟩ rfl

theorem servicesNodup_applyOp (op : VaultOp) (st : Store)
    (h : servicesNodup st) : servicesNodup (applyOp op st) := by
  cases op with
  | initOp ds => exact servicesNodup_seed ds st h
  | update s k ts m now => exact servicesNodup_update_key s k ts m now st h

/-- Claim C9: service uniqueness is an invariant — after any sequence of
seeding and update operations on a store with unique service names, the
store still has at most one record per service. -/
theorem C9_service_uniqueness (ops : List VaultOp) (store : Store)
    (h : servicesNodup store) : servicesNodup (runOps ops store) := by
  induction ops generalizing store with
  | nil => exact h
  | cons op ops ih =>
    exact ih (applyOp op store) (servicesNodup_applyOp op store h)

/-- Witness for C9 on a concrete operation sequence from the empty store. -/
theorem C9_service_uniqueness_witness :
    servicesNodup (runOps
      [VaultOp.initOp ["openai", "ollama"],
        VaultOp.update "ollama" "tok" none (some "llama2") 5,
        VaultOp.initOp ["openai", "ollama"]] []) :=
  C9_service_uniqueness _ _ (by decide)

/-!
## Export lemmas (for C2)
-/

theorem export_fold_spec (keys : List (String × String × String × String))
    (acc : String) :
    keys.foldl (fun acc e =>
        if e.2.1 != "" then acc ++ (envVarName e.1 ++ "=" ++ e.2.1 ++ "\n")
        else acc) acc
      = acc ++ concatAll ((keys.filter (fun e => e.2.1 != "")).map
          (fun e => envVarName e.1 ++ "=" ++ e.2.1 ++ "\n")) := by
  induction keys generalizing acc with
  | nil => simp [concatAll]
  | cons e keys ih =>
    by_cases hk : (e.2.1 != "") = true
    · rw [List.foldl_cons, if_pos hk, ih, List.filter_cons, if_pos hk]
      simp [concatAll, String.append_assoc]
    · rw [List.foldl_cons, if_neg hk, ih, List.filter_cons, if_neg hk]

theorem count_filter_map (keys : List (String × String × String × String)) :
    ((keys.map (fun e => e.2.1)).filter (fun k => k != "")).length
      = (keys.filter (fun e => e.2.1 != "")).length := by
  induction keys with
  | nil => rfl
  | cons e keys ih =>
    by_cases hk : (e.2.1 != "") = true <;>
      simp [List.filter_cons, hk, ih]

theorem export_env_eq (old : String) (now : Int) (store : Store) :
    export_env old now store
      = (concatAll (((list_keys now store).filter (fun e => e.2.1 != "")).map
            (fun e => envVarName e.1 ++ "=" ++ e.2.1 ++ "\n")),
          ((list_keys now store).filter (fun e => e.2.1 != "")).length) := by
  simp only [export_env, Prod.mk.injEq]
  constructor
  · rw [export_fold_spec, String.empty_append]
  · exact count_filter_map _

/-- Claim C2: `export_env` writes exactly one `ENV_VAR=value` line per
listed record with non-empty value, in list order; empty-value records are
skipped; the reported count is the number of lines written; and the result
does not depend on the previous contents of the env file (mode "w"
truncates).  On records ("a","x") and ("b","") the file is the single line
"A_API_KEY=x" and the count is 1. -/
theorem C2_export_env (old1 old2 : String) (now : Int) (store : Store) :
    (export_env old1 now store).1
      = concatAll (((list_keys now store).filter (fun e => e.2.1 != "")).map
          (fun e => envVarName e.1 ++ "=" ++ e.2.1 ++ "\n")) ∧
    (export_env old1 now store).2
      = ((list_keys now store).filter (fun e => e.2.1 != "")).length ∧
    export_env old1 now store = export_env old2 now store ∧
    export_env old1 0 [⟨"a", "x", none, none⟩, ⟨"b", "", none, none⟩]
      = ("A_API_KEY=x\n", 1) := by
  refine ⟨?_, ?_, rfl, rfl⟩
  · rw [export_env_eq]
  · rw [export_env_eq]
